import Mathlib

/-!
# A verification development for the private Terraform registry server

The development embeds `registry.go` (package `main`) of
privateterraformregistry.  Handlers are embedded as functions on an explicit
`ResponseWriter` value; the handlers that reach the shared index through a
pointer (`*modules.Modules`) are embedded as functions on an explicit server
state.  The collaborators living in `internal/uploader` and
`internal/datamanager`, and `Module.Validate`, are parameters of the
development (structure `Env`): every theorem holds for all of them.
-/

set_option autoImplicit false
set_option linter.dupNamespace false

namespace Registry

/-! ## The data model -/

/-- Modelled from the spec: the type `modules.Module` (package `internal/modules`),
"a value of four required string fields: namespace, name, system, version".
The field names are those used by the composite literal in `uploadModule`. -/
structure Module where
  Namespace : String
  Name : String
  System : String
  Version : String
deriving DecidableEq, Repr

/-- Modelled from the spec: the type `modules.Modules` (package `internal/modules`),
"an ordered sequence of Module Identities", serialised as an "object with a
modules field whose value is an array of identity objects".  It is a struct with
one slice field `Modules` (`ms.Modules` is ranged over in `listAvailableVersions`
and `modules.Modules{}` is its zero value in `main`).  A Go slice value is a
view of fixed length: a copy of the struct keeps the elements it had when the
copy was made, whatever is appended later through a pointer to the original. -/
structure Modules where
  Modules : List Module
deriving DecidableEq, Repr

/-- Modelled from the spec: the method `(*Modules).Add` (package `internal/modules`).
Section 4.3: "appends to the ordered sequence"; section 9: "The source Add
operation does not check for duplicates; repeated uploads of the same identity
would produce duplicate index entries."  The no-op on a duplicate that section 4.3
goes on to describe is the policy section 9 reports as absent from the source; it
is `Modules.AddOnce` below. -/
def Modules.Add (ms : Registry.Modules) (m : Module) : Registry.Modules :=
  { Modules := ms.Modules ++ [m] }

/-- Modelled from the spec: the alternative policy of section 4.3 for `Add`,
"Pre-existing duplicate is a no-op with success", which section 9 says the
source does not implement.  It is used only to compare with `Modules.Add`. -/
def Modules.AddOnce (ms : Registry.Modules) (m : Module) : Registry.Modules :=
  if m ∈ ms.Modules then ms else { Modules := ms.Modules ++ [m] }

/-- Invariant I1 of the spec: no two entries share the same 4-tuple. -/
def Modules.I1 (ms : Registry.Modules) : Prop := ms.Modules.Nodup

instance (ms : Modules) : Decidable ms.I1 := by
  unfold Modules.I1; infer_instance

/-! ## The HTTP layer (`net/http`, `gorilla/mux`, `encoding/json`) -/

/-- A JSON document, as produced by `json.NewEncoder(w).Encode`. -/
inductive JSON where
  | null
  | str (s : String)
  | arr (xs : List JSON)
  | obj (fields : List (String × JSON))

/-- One call of `Write` on the response: raw bytes or an encoded JSON document. -/
inductive Chunk where
  | bytes (s : String)
  | json (j : JSON)

/-- The request as the handlers see it: the method, the route variables
(`mux.Vars(r)`, a map whose missing keys read as the empty string) and the body. -/
structure Request where
  Method : String
  Vars : String → String
  Body : List Nat

/-- The state of an `http.ResponseWriter`: the header map, the status code once
the header has been written (`none` before), and the chunks written so far. -/
structure ResponseWriter where
  header : List (String × String)
  status : Option Nat
  body : List Chunk

/-- The writer the server hands to a handler. -/
def ResponseWriter.fresh : ResponseWriter :=
  { header := [], status := none, body := [] }

/-- The call `w.Header().Set(key, value)`; the header map no longer reaches the client
once the header has been written. -/
def ResponseWriter.SetHeader (w : ResponseWriter) (key value : String) : ResponseWriter :=
  match w.status with
  | some _ => w
  | none => { w with header := (w.header.filter (fun kv => kv.1 != key)) ++ [(key, value)] }

/-- The call `w.WriteHeader(code)`; a second call is ignored. -/
def ResponseWriter.WriteHeader (w : ResponseWriter) (code : Nat) : ResponseWriter :=
  match w.status with
  | some _ => w
  | none => { w with status := some code }

/-- The call `w.Write(chunk)`; writes the header with status 200 when it has not been written. -/
def ResponseWriter.Write (w : ResponseWriter) (c : Chunk) : ResponseWriter :=
  let w1 := w.WriteHeader 200
  { w1 with body := w1.body ++ [c] }

/-- The status the client receives: 200 when the handler returned without writing the header. -/
def ResponseWriter.statusCode (w : ResponseWriter) : Nat :=
  w.status.getD 200

/-- The value of a response header. -/
def ResponseWriter.get (w : ResponseWriter) (key : String) : Option String :=
  (w.header.find? (fun kv => kv.1 == key)).map Prod.snd

/-! ## Package-level declarations of `registry.go` -/

def dataFile : String := "data/data.json"

def maxUploadSize : Nat := 32 <<< 20

/-- The default storage root assigned in `main`. -/
def defaultDataDir : String := "/.privateterraformregistry/data"

/-- The function `os.Getenv`: the empty string when the variable is unset. -/
def Getenv (value : Option String) : String :=
  value.getD ""

/-- The struct `uploader.Config` as built in `uploadModule`. -/
structure UploaderConfig where
  MaxUploadSize : Nat
  DataDir : String
deriving DecidableEq, Repr

/-- The struct `datamanager.Config` as built in `main`. -/
structure DataManagerConfig where
  DataDir : String
deriving DecidableEq, Repr

/-- What the handlers do besides answering: log lines and calls of the collaborators. -/
inductive Event where
  | log (msg : String)
  | enterUploadModule
  | enterDownloadModule
  | validate (m : Module)
  | upload (cfg : UploaderConfig) (m : Module)
  | add (m : Module)
  | save (cfg : DataManagerConfig)
deriving DecidableEq, Repr

/-- The collaborators of `registry.go` that live in other packages.  `World` is
whatever they act on (the file system).  An error is `some message`, `nil` is `none`. -/
structure Env (World : Type) where
  /-- The method `Module.Validate`. -/
  Validate : Module → Option String
  /-- The method `uploader.Upload(r, m)` of an uploader built from a config. -/
  Upload : UploaderConfig → World → Request → Module → World × Option String
  /-- The method `datamanager.Load()`, filling the index it was built with. -/
  Load : DataManagerConfig → World → Modules → World × Modules × Option String
  /-- The method `datamanager.Save()`, reading the index it was built with. -/
  Save : DataManagerConfig → World → Modules → World × Option String

/-! ## The handlers -/

/-- The local type `Version` of `listAvailableVersions`. -/
structure Version where
  Version : String
deriving DecidableEq, Repr

/-- The loop of `listAvailableVersions` over `ms.Modules`. -/
def availableVersions (ms : Modules) (nspace system name : String) : List Version :=
  ms.Modules.foldl
    (fun acc m =>
      if m.Namespace == nspace && m.System == system && m.Name == name then
        acc ++ [{ Version := m.Version }]
      else acc)
    []

/-- The anonymous struct `p` of `listAvailableVersions`: field `Modules`, a slice of
structs with one field `Versions`. -/
structure VersionsPayload where
  Modules : List (List Version)
deriving DecidableEq, Repr

/-- The payload `p` built by `listAvailableVersions`. -/
def versionsPayload (ms : Modules) (r : Request) : VersionsPayload :=
  let vars := r.Vars
  let nspace := vars "namespace"
  let system := vars "system"
  let name := vars "name"
  { Modules := [availableVersions ms nspace system name] }

/-- JSON encoding of a `[]Version` following the struct tags; a slice that was never
appended to is nil and encodes as `null`. -/
def encodeVersions (vs : List Version) : JSON :=
  match vs with
  | [] => JSON.null
  | _ :: _ => JSON.arr (vs.map (fun v => JSON.obj [("version", JSON.str v.Version)]))

/-- JSON encoding of the payload `p` following the struct tags. -/
def encodePayload (p : VersionsPayload) : JSON :=
  JSON.obj [("modules", JSON.arr (p.Modules.map (fun vs => JSON.obj [("versions", encodeVersions vs)])))]

def getServiceDiscovery (w : ResponseWriter) (_r : Request) : ResponseWriter :=
  let w := w.SetHeader "Content-Type" "application/json"
  w.Write (Chunk.json (JSON.obj [("modules.v1", JSON.str "/terraform/modules/v1/")]))

/-- The handler takes the index by value: the closure it returns works on the
copy made when `listAvailableVersions(ms)` was evaluated. -/
def listAvailableVersions (ms : Modules) : ResponseWriter → Request → ResponseWriter :=
  fun w r =>
    let p := versionsPayload ms r
    let w := w.SetHeader "Content-Type" "application/json"
    w.Write (Chunk.json (encodePayload p))

def getDownloadPath (w : ResponseWriter) (r : Request) : ResponseWriter :=
  let vars := r.Vars
  let w := w.SetHeader "X-Terraform-Get"
    ("/modules/" ++ vars "namespace" ++ "/" ++ vars "system" ++ "/" ++ vars "name" ++ "/" ++ vars "version")
  w.WriteHeader 204

/-- The state of the running server: the package variable `dataDir`, the
variable `ms` of `main` (reached through `&ms` by the upload handler and by the
data manager), the data manager built in `main`, the closure registered for the
listing route, the world of the collaborators and the events so far. -/
structure Server (World : Type) where
  dataDir : String
  ms : Modules
  datamanager : DataManagerConfig
  versionsHandler : ResponseWriter → Request → ResponseWriter
  world : World
  trace : List Event

/-- Append an event to the trace. -/
def Server.record {World : Type} (s : Server World) (e : Event) : Server World :=
  { s with trace := s.trace ++ [e] }

def downloadModule {World : Type} (s : Server World) (w : ResponseWriter) (_r : Request) :
    Server World × ResponseWriter :=
  (s.record Event.enterDownloadModule, w)

/-- The composite literal `modules.Module` built from the route variables in `uploadModule`. -/
def requestModule (r : Request) : Module :=
  let vars := r.Vars
  { Namespace := vars "namespace", System := vars "system", Name := vars "name",
    Version := vars "version" }

/-- The uploader configuration built on every call of `uploadModule`. -/
def uploaderConfig (dataDir : String) : UploaderConfig :=
  { MaxUploadSize := maxUploadSize, DataDir := dataDir }

def uploadModule {World : Type} (E : Env World) (s : Server World) (w : ResponseWriter)
    (r : Request) : Server World × ResponseWriter :=
  let s := s.record Event.enterUploadModule
  let m : Module := requestModule r
  let err := E.Validate m
  let s := s.record (Event.validate m)
  match err with
  | some e => (s.record (Event.log e), w)
  | none =>
    let cfg : UploaderConfig := uploaderConfig s.dataDir
    let res := E.Upload cfg s.world r m
    let s := { s with world := res.1 }.record (Event.upload cfg m)
    match res.2 with
    | some e => (s.record (Event.log e), w)
    | none =>
      let s := { s with ms := s.ms.Add m }.record (Event.add m)
      let res := E.Save s.datamanager s.world s.ms
      let s := { s with world := res.1 }.record (Event.save s.datamanager)
      match res.2 with
      | some e => (s.record (Event.log e), w)
      | none => (s, w)

def uploadOrDownloadModule {World : Type} (E : Env World) (s : Server World)
    (w : ResponseWriter) (r : Request) : Server World × ResponseWriter :=
  if r.Method = "POST" then
    uploadModule E (s.record (Event.log "Uploading Module")) w r
  else if r.Method = "GET" then
    downloadModule (s.record (Event.log "Downloading Module")) w r
  else
    let w := w.WriteHeader 405
    (s, w.Write (Chunk.bytes "Method Not Allowed"))

/-- The function `main` up to the point where the routes are registered: `none` is
the `log.Fatal` exit on a failed `Load`. -/
def main {World : Type} (E : Env World) (envDataDir : Option String) (world : World) :
    Option (Server World) :=
  let dataDir := Getenv envDataDir
  let dataDir := if dataDir = "" then defaultDataDir else dataDir
  let ms : Modules := { Modules := [] }
  let datamanager : DataManagerConfig := { DataDir := dataDir }
  let res := E.Load datamanager world ms
  match res.2.2 with
  | some _ => none
  | none =>
    some
      { dataDir := dataDir
        ms := res.2.1
        datamanager := datamanager
        versionsHandler := listAvailableVersions res.2.1
        world := res.1
        trace := [Event.log "Loading modules into memory from file", Event.log "Registering Routes",
                  Event.log "Server Ready"] }

/-- The four routes registered in `main`. -/
inductive Route where
  | serviceDiscovery
  | versions
  | download
  | modules
deriving DecidableEq, Repr

/-- One request served by the router: a fresh writer goes to the handler of the route. -/
def Server.serve {World : Type} (E : Env World) (s : Server World) (route : Route)
    (r : Request) : Server World × ResponseWriter :=
  match route with
  | Route.serviceDiscovery => (s, getServiceDiscovery ResponseWriter.fresh r)
  | Route.versions => (s, s.versionsHandler ResponseWriter.fresh r)
  | Route.download => (s, getDownloadPath ResponseWriter.fresh r)
  | Route.modules => uploadOrDownloadModule E s ResponseWriter.fresh r

/-- A sequence of requests served one after the other. -/
def Server.run {World : Type} (E : Env World) (s : Server World) :
    List (Route × Request) → Server World
  | [] => s
  | (route, r) :: rest => Server.run E (Server.serve E s route r).1 rest

/-! ## Sample collaborators

One possible behaviour of the collaborators, used to evaluate the handlers on
concrete requests.  The theorems below hold for every `Env`. -/

/-- A file system reduced to what the collaborators touch. -/
structure Disk where
  archives : List Module
  snapshot : List Module
  writable : Bool
deriving DecidableEq, Repr

def sampleValidate (m : Module) : Option String :=
  if m.Namespace = "" ∨ m.Name = "" ∨ m.System = "" ∨ m.Version = "" then
    some "empty field"
  else if m.Version.toList.all (fun c => c.isDigit || c == '.') then none
  else some "version is not a semantic version"

def sampleUpload (cfg : UploaderConfig) (d : Disk) (r : Request) (m : Module) :
    Disk × Option String :=
  if cfg.MaxUploadSize < r.Body.length then (d, some "request body too large")
  else if r.Body = [] then (d, some "missing form file")
  else ({ d with archives := d.archives ++ [m] }, none)

def sampleLoad (_cfg : DataManagerConfig) (d : Disk) (ms : Modules) :
    Disk × Modules × Option String :=
  (d, { Modules := ms.Modules ++ d.snapshot }, none)

def sampleSave (_cfg : DataManagerConfig) (d : Disk) (ms : Modules) : Disk × Option String :=
  if d.writable then ({ d with snapshot := ms.Modules }, none)
  else (d, some "cannot write the snapshot")

def sampleEnv : Env Disk :=
  { Validate := sampleValidate, Upload := sampleUpload, Load := sampleLoad, Save := sampleSave }

/-- The route variables of a request for `acme/vpc/aws` at a given version. -/
def acmeVars (version : String) : String → String :=
  fun key =>
    if key = "namespace" then "acme"
    else if key = "name" then "vpc"
    else if key = "system" then "aws"
    else if key = "version" then version
    else ""

def emptyDisk : Disk := { archives := [], snapshot := [], writable := true }

def acmePost : Request := { Method := "POST", Vars := acmeVars "1.0.0", Body := [31, 139, 8] }

def acmeGet : Request := { Method := "GET", Vars := acmeVars "1.0.0", Body := [] }

def acme100 : Module := { Namespace := "acme", Name := "vpc", System := "aws", Version := "1.0.0" }

/-! ## Notions used to state the properties -/

/-- The operation `Versions(namespace, name, system)` in the words of the spec: "all
versions whose first three coordinates match, in index order". -/
def Versions (ms : Modules) (nspace name system : String) : List String :=
  (ms.Modules.filter
    (fun m => decide (m.Namespace = nspace ∧ m.Name = name ∧ m.System = system))).map
    (fun m => m.Version)

/-- The body the listing handler writes when no version is available. -/
def emptyVersionsDocument : JSON :=
  JSON.obj [("modules", JSON.arr [JSON.obj [("versions", JSON.null)]])]

/-- The storage root in the words of the spec: the value of DATA_DIR when it is
non-empty, the default when DATA_DIR is unset or empty. -/
def storageRoot (envDataDir : Option String) : String :=
  match envDataDir with
  | none => "/.privateterraformregistry/data"
  | some value => if value = "" then "/.privateterraformregistry/data" else value

/-- What `uploader.Upload` returns when `uploadModule` calls it in state `s` on request `r`. -/
def uploadResult {World : Type} (E : Env World) (s : Server World) (r : Request) :
    World × Option String :=
  E.Upload (uploaderConfig s.dataDir) s.world r (requestModule r)

/-- What `datamanager.Save` returns when `uploadModule` calls it after a successful upload. -/
def saveResult {World : Type} (E : Env World) (s : Server World) (r : Request) :
    World × Option String :=
  E.Save s.datamanager (uploadResult E s r).1 (s.ms.Add (requestModule r))

/-- The events a handler added to the trace, given the server before and after. -/
def newEvents {World : Type} (before after : Server World) : List Event :=
  after.trace.drop before.trace.length

def Event.isUpload : Event → Bool
  | Event.upload _ _ => true
  | _ => false

def Event.isAdd : Event → Bool
  | Event.add _ => true
  | _ => false

def Event.isSave : Event → Bool
  | Event.save _ => true
  | _ => false

/-- The server `main` builds from an empty storage root when DATA_DIR is unset. -/
def sampleServer : Server Disk :=
  { dataDir := defaultDataDir
    ms := { Modules := [] }
    datamanager := { DataDir := defaultDataDir }
    versionsHandler := listAvailableVersions { Modules := [] }
    world := emptyDisk
    trace := [Event.log "Loading modules into memory from file", Event.log "Registering Routes",
              Event.log "Server Ready"] }

/-- The same server on a storage root whose snapshot cannot be written. -/
def readOnlyServer : Server Disk :=
  { sampleServer with world := { emptyDisk with writable := false } }

/-- A listing request for `acme/vpc/aws`. -/
def acmeVersions : Request := { Method := "GET", Vars := acmeVars "", Body := [] }

/-- An upload whose version is not a semantic version. -/
def bananaPost : Request := { Method := "POST", Vars := acmeVars "banana", Body := [31, 139, 8] }

/-- An upload whose body carries no file. -/
def emptyPost : Request := { Method := "POST", Vars := acmeVars "1.0.0", Body := [] }

/-- A request with a method that is neither POST nor GET. -/
def acmeDelete : Request := { Method := "DELETE", Vars := acmeVars "1.0.0", Body := [] }

/-! ## Listing and resolving -/

theorem foldl_availableVersions (l : List Module) (nspace system name : String)
    (acc : List Version) :
    l.foldl
      (fun acc m =>
        if m.Namespace == nspace && m.System == system && m.Name == name then
          acc ++ [{ Version := m.Version }]
        else acc)
      acc
    = acc ++ (l.filter
        (fun m => decide (m.Namespace = nspace ∧ m.Name = name ∧ m.System = system))).map
        (fun m => Version.mk m.Version) := by
  induction l generalizing acc with
  | nil => simp
  | cons m rest ih =>
    rw [List.foldl_cons, ih]
    by_cases h : m.Namespace = nspace ∧ m.Name = name ∧ m.System = system
    · obtain ⟨h1, h2, h3⟩ := h
      simp [h1, h2, h3]
    · have hb : (m.Namespace == nspace && m.System == system && m.Name == name) = false := by
        rw [Bool.eq_false_iff]
        intro hc
        simp only [Bool.and_eq_true, beq_iff_eq] at hc
        exact h ⟨hc.1.1, hc.2, hc.1.2⟩
      simp [hb, h]

theorem availableVersions_eq (ms : Modules) (nspace system name : String) :
    availableVersions ms nspace system name
      = (Versions ms nspace name system).map Version.mk := by
  unfold availableVersions Versions
  rw [foldl_availableVersions]
  simp [List.map_map, Function.comp_def]

/-- C1: the versions returned by the listing handler are exactly the version fields of the
index entries whose namespace, name and system equal the requested ones, in index order
and with the same multiplicity; the handler writes that list, encoded, as its body; an
entry differing in one of the three coordinates contributes nothing. -/
theorem listAvailableVersions_eq_Versions (ms : Modules) (r : Request) :
    (versionsPayload ms r).Modules
        = [(Versions ms (r.Vars "namespace") (r.Vars "name") (r.Vars "system")).map Version.mk]
      ∧ (listAvailableVersions ms ResponseWriter.fresh r).body
        = [Chunk.json (encodePayload
            { Modules := [(Versions ms (r.Vars "namespace") (r.Vars "name")
                (r.Vars "system")).map Version.mk] })]
      ∧ Versions ms (r.Vars "namespace") (r.Vars "name") (r.Vars "system")
        = (ms.Modules.filter
            (fun m => decide (m.Namespace = r.Vars "namespace" ∧ m.Name = r.Vars "name"
              ∧ m.System = r.Vars "system"))).map (fun m => m.Version)
      ∧ (∀ v, v ∈ Versions ms (r.Vars "namespace") (r.Vars "name") (r.Vars "system") ↔
          ∃ m ∈ ms.Modules, m.Namespace = r.Vars "namespace" ∧ m.Name = r.Vars "name"
            ∧ m.System = r.Vars "system" ∧ m.Version = v) := by
  have hp : (versionsPayload ms r).Modules
      = [(Versions ms (r.Vars "namespace") (r.Vars "name") (r.Vars "system")).map Version.mk] := by
    simp [versionsPayload, availableVersions_eq]
  refine ⟨hp, ?_, rfl, ?_⟩
  · have hq : versionsPayload ms r
        = { Modules := [(Versions ms (r.Vars "namespace") (r.Vars "name")
              (r.Vars "system")).map Version.mk] } := by
      cases hv : versionsPayload ms r with
      | mk l => rw [hv] at hp; simpa using hp
    simp [listAvailableVersions, hq, ResponseWriter.fresh, ResponseWriter.SetHeader,
      ResponseWriter.Write, ResponseWriter.WriteHeader]
  · intro v
    simp [Versions, and_assoc]

/-- C3: for every request of the download route, `getDownloadPath` answers with status 204,
an empty body, and the header X-Terraform-Get equal to "/modules/" followed by namespace,
system, name and version (system before name), separated by "/"; the index is not an
input of the handler. -/
theorem getDownloadPath_response (r : Request) :
    (getDownloadPath ResponseWriter.fresh r).statusCode = 204
      ∧ (getDownloadPath ResponseWriter.fresh r).body = []
      ∧ (getDownloadPath ResponseWriter.fresh r).get "X-Terraform-Get"
        = some ("/modules/" ++ r.Vars "namespace" ++ "/" ++ r.Vars "system" ++ "/"
            ++ r.Vars "name" ++ "/" ++ r.Vars "version")
      ∧ ∀ (World : Type) (E : Env World) (s : Server World),
          (Server.serve E s Route.download r).2 = getDownloadPath ResponseWriter.fresh r
            ∧ (Server.serve E s Route.download r).1 = s := by
  refine ⟨rfl, rfl, ?_, fun _ _ _ => ⟨rfl, rfl⟩⟩
  simp [getDownloadPath, ResponseWriter.fresh, ResponseWriter.SetHeader,
    ResponseWriter.WriteHeader, ResponseWriter.get]

/-- C9: the listing handler always answers with status 200, content type application/json
and an envelope whose "modules" array has exactly one element; when no index entry
matches the requested namespace, name and system, the "versions" list of that element is
empty and is rendered as null. -/
theorem listAvailableVersions_no_match (ms : Modules) (r : Request) :
    ((listAvailableVersions ms ResponseWriter.fresh r).statusCode = 200
      ∧ (listAvailableVersions ms ResponseWriter.fresh r).get "Content-Type"
          = some "application/json"
      ∧ (listAvailableVersions ms ResponseWriter.fresh r).body
          = [Chunk.json (encodePayload (versionsPayload ms r))]
      ∧ (versionsPayload ms r).Modules.length = 1
      ∧ ∃ versions, encodePayload (versionsPayload ms r)
          = JSON.obj [("modules", JSON.arr [JSON.obj [("versions", versions)]])])
    ∧ ((∀ m ∈ ms.Modules, ¬ (m.Namespace = r.Vars "namespace" ∧ m.Name = r.Vars "name"
          ∧ m.System = r.Vars "system")) →
        (versionsPayload ms r).Modules = [[]]
        ∧ (listAvailableVersions ms ResponseWriter.fresh r).body
            = [Chunk.json emptyVersionsDocument]) := by
  refine ⟨⟨rfl, ?_, ?_, rfl, ⟨_, rfl⟩⟩, ?_⟩
  · simp [listAvailableVersions, ResponseWriter.fresh, ResponseWriter.SetHeader,
      ResponseWriter.Write, ResponseWriter.WriteHeader, ResponseWriter.get]
  · simp [listAvailableVersions, ResponseWriter.fresh, ResponseWriter.SetHeader,
      ResponseWriter.Write, ResponseWriter.WriteHeader]
  · intro h
    have hv : availableVersions ms (r.Vars "namespace") (r.Vars "system") (r.Vars "name")
        = [] := by
      rw [availableVersions_eq]
      simp only [Versions, List.map_eq_nil_iff, List.filter_eq_nil_iff, decide_eq_true_eq]
      exact h
    have hp : versionsPayload ms r = { Modules := [[]] } := by
      simp [versionsPayload, hv]
    refine ⟨by rw [hp], ?_⟩
    simp [listAvailableVersions, hp, ResponseWriter.fresh, ResponseWriter.SetHeader,
      ResponseWriter.Write, ResponseWriter.WriteHeader, encodePayload, encodeVersions,
      emptyVersionsDocument]

/-- C9, at concrete inputs: the empty index, and an index holding only another module. -/
theorem listAvailableVersions_no_match_witness :
    ((versionsPayload { Modules := [] } acmeGet).Modules = [[]]
      ∧ (listAvailableVersions { Modules := [] } ResponseWriter.fresh acmeGet).body
          = [Chunk.json emptyVersionsDocument])
    ∧ ((versionsPayload { Modules := [{ acme100 with System := "azure" }] } acmeGet).Modules
          = [[]]
      ∧ (listAvailableVersions { Modules := [{ acme100 with System := "azure" }] }
            ResponseWriter.fresh acmeGet).body
          = [Chunk.json emptyVersionsDocument]) :=
  ⟨(listAvailableVersions_no_match { Modules := [] } acmeGet).2 (by decide),
   (listAvailableVersions_no_match { Modules := [{ acme100 with System := "azure" }] }
      acmeGet).2 (by decide)⟩

/-! ## The upload pipeline, case by case -/

theorem uploadModule_validate_error {World : Type} (E : Env World) (s : Server World)
    (w : ResponseWriter) (r : Request) (e : String)
    (hv : E.Validate (requestModule r) = some e) :
    uploadModule E s w r
      = ({ s with trace := s.trace ++ [Event.enterUploadModule,
            Event.validate (requestModule r), Event.log e] }, w) := by
  simp [uploadModule, Server.record, hv]

theorem uploadModule_upload_error {World : Type} (E : Env World) (s : Server World)
    (w : ResponseWriter) (r : Request) (e : String)
    (hv : E.Validate (requestModule r) = none) (hu : (uploadResult E s r).2 = some e) :
    uploadModule E s w r
      = ({ s with
            world := (uploadResult E s r).1
            trace := s.trace ++ [Event.enterUploadModule, Event.validate (requestModule r),
              Event.upload (uploaderConfig s.dataDir) (requestModule r), Event.log e] }, w) := by
  unfold uploadResult at hu
  simp [uploadModule, Server.record, hv, hu, uploadResult]

theorem uploadModule_save_error {World : Type} (E : Env World) (s : Server World)
    (w : ResponseWriter) (r : Request) (e : String)
    (hv : E.Validate (requestModule r) = none) (hu : (uploadResult E s r).2 = none)
    (hs : (saveResult E s r).2 = some e) :
    uploadModule E s w r
      = ({ s with
            ms := s.ms.Add (requestModule r)
            world := (saveResult E s r).1
            trace := s.trace ++ [Event.enterUploadModule, Event.validate (requestModule r),
              Event.upload (uploaderConfig s.dataDir) (requestModule r),
              Event.add (requestModule r), Event.save s.datamanager, Event.log e] }, w) := by
  unfold saveResult at hs
  unfold uploadResult at hu hs
  simp [uploadModule, Server.record, hv, hu, hs, uploadResult, saveResult]

theorem uploadModule_success {World : Type} (E : Env World) (s : Server World)
    (w : ResponseWriter) (r : Request)
    (hv : E.Validate (requestModule r) = none) (hu : (uploadResult E s r).2 = none)
    (hs : (saveResult E s r).2 = none) :
    uploadModule E s w r
      = ({ s with
            ms := s.ms.Add (requestModule r)
            world := (saveResult E s r).1
            trace := s.trace ++ [Event.enterUploadModule, Event.validate (requestModule r),
              Event.upload (uploaderConfig s.dataDir) (requestModule r),
              Event.add (requestModule r), Event.save s.datamanager] }, w) := by
  unfold saveResult at hs
  unfold uploadResult at hu hs
  simp [uploadModule, Server.record, hv, hu, hs, uploadResult, saveResult]

/-- Whatever the collaborators answer, `uploadModule` hands the response writer back as it
received it. -/
theorem uploadModule_writer {World : Type} (E : Env World) (s : Server World)
    (w : ResponseWriter) (r : Request) : (uploadModule E s w r).2 = w := by
  cases hv : E.Validate (requestModule r) with
  | some e => rw [uploadModule_validate_error E s w r e hv]
  | none =>
    cases hu : (uploadResult E s r).2 with
    | some e => rw [uploadModule_upload_error E s w r e hv hu]
    | none =>
      cases hs : (saveResult E s r).2 with
      | some e => rw [uploadModule_save_error E s w r e hv hu hs]
      | none => rw [uploadModule_success E s w r hv hu hs]

/-- The trace only grows, the configuration and the listing closure stay, and every upload
or save recorded by a call carries the configuration of the server. -/
theorem uploadModule_frame {World : Type} (E : Env World) (s : Server World)
    (w : ResponseWriter) (r : Request) :
    (uploadModule E s w r).1.dataDir = s.dataDir
      ∧ (uploadModule E s w r).1.datamanager = s.datamanager
      ∧ (uploadModule E s w r).1.versionsHandler = s.versionsHandler
      ∧ ∃ added, (uploadModule E s w r).1.trace = s.trace ++ added
          ∧ Event.enterUploadModule ∈ added
          ∧ Event.enterDownloadModule ∉ added
          ∧ (∀ cfg m, Event.upload cfg m ∈ added → cfg = uploaderConfig s.dataDir)
          ∧ (∀ cfg, Event.save cfg ∈ added → cfg = s.datamanager) := by
  cases hv : E.Validate (requestModule r) with
  | some e =>
    rw [uploadModule_validate_error E s w r e hv]
    exact ⟨rfl, rfl, rfl, _, rfl, by simp, by simp, by simp, by simp⟩
  | none =>
    cases hu : (uploadResult E s r).2 with
    | some e =>
      rw [uploadModule_upload_error E s w r e hv hu]
      refine ⟨rfl, rfl, rfl, _, rfl, by simp, by simp, ?_, by simp⟩
      intro cfg m h
      simp at h
      exact h.1
    | none =>
      cases hs : (saveResult E s r).2 with
      | some e =>
        rw [uploadModule_save_error E s w r e hv hu hs]
        refine ⟨rfl, rfl, rfl, _, rfl, by simp, by simp, ?_, ?_⟩
        · intro cfg m h
          simp at h
          exact h.1
        · intro cfg h
          simp at h
          exact h
      | none =>
        rw [uploadModule_success E s w r hv hu hs]
        refine ⟨rfl, rfl, rfl, _, rfl, by simp, by simp, ?_, ?_⟩
        · intro cfg m h
          simp at h
          exact h.1
        · intro cfg h
          simp at h
          exact h

theorem uploadOrDownloadModule_frame {World : Type} (E : Env World) (s : Server World)
    (w : ResponseWriter) (r : Request) :
    (uploadOrDownloadModule E s w r).1.dataDir = s.dataDir
      ∧ (uploadOrDownloadModule E s w r).1.datamanager = s.datamanager
      ∧ (uploadOrDownloadModule E s w r).1.versionsHandler = s.versionsHandler
      ∧ ∃ added, (uploadOrDownloadModule E s w r).1.trace = s.trace ++ added
          ∧ (∀ cfg m, Event.upload cfg m ∈ added → cfg = uploaderConfig s.dataDir)
          ∧ (∀ cfg, Event.save cfg ∈ added → cfg = s.datamanager) := by
  unfold uploadOrDownloadModule
  split
  · obtain ⟨h1, h2, h3, added, h4, _, _, h5, h6⟩ :=
      uploadModule_frame E (s.record (Event.log "Uploading Module")) w r
    refine ⟨h1, h2, h3, Event.log "Uploading Module" :: added, ?_, ?_, ?_⟩
    · rw [h4]; simp [Server.record]
    · intro cfg m h
      simp at h
      exact h5 cfg m h
    · intro cfg h
      simp at h
      exact h6 cfg h
  · split
    · exact ⟨rfl, rfl, rfl, [Event.log "Downloading Module", Event.enterDownloadModule],
        by simp [downloadModule, Server.record], by simp, by simp⟩
    · exact ⟨rfl, rfl, rfl, [], by simp, by simp, by simp⟩

theorem serve_frame {World : Type} (E : Env World) (s : Server World) (route : Route)
    (r : Request) :
    (Server.serve E s route r).1.dataDir = s.dataDir
      ∧ (Server.serve E s route r).1.datamanager = s.datamanager
      ∧ (Server.serve E s route r).1.versionsHandler = s.versionsHandler
      ∧ ∃ added, (Server.serve E s route r).1.trace = s.trace ++ added
          ∧ (∀ cfg m, Event.upload cfg m ∈ added → cfg = uploaderConfig s.dataDir)
          ∧ (∀ cfg, Event.save cfg ∈ added → cfg = s.datamanager) := by
  cases route with
  | modules => exact uploadOrDownloadModule_frame E s ResponseWriter.fresh r
  | serviceDiscovery => exact ⟨rfl, rfl, rfl, [], by simp [Server.serve], by simp, by simp⟩
  | versions => exact ⟨rfl, rfl, rfl, [], by simp [Server.serve], by simp, by simp⟩
  | download => exact ⟨rfl, rfl, rfl, [], by simp [Server.serve], by simp, by simp⟩

theorem run_frame {World : Type} (E : Env World) (reqs : List (Route × Request))
    (s : Server World) :
    (Server.run E s reqs).dataDir = s.dataDir
      ∧ (Server.run E s reqs).datamanager = s.datamanager
      ∧ (Server.run E s reqs).versionsHandler = s.versionsHandler
      ∧ ∃ added, (Server.run E s reqs).trace = s.trace ++ added
          ∧ (∀ cfg m, Event.upload cfg m ∈ added → cfg = uploaderConfig s.dataDir)
          ∧ (∀ cfg, Event.save cfg ∈ added → cfg = s.datamanager) := by
  induction reqs generalizing s with
  | nil => exact ⟨rfl, rfl, rfl, [], by simp [Server.run], by simp, by simp⟩
  | cons q rest ih =>
    obtain ⟨route, r⟩ := q
    obtain ⟨a1, a2, a3, added1, a4, a5, a6⟩ := serve_frame E s route r
    obtain ⟨b1, b2, b3, added2, b4, b5, b6⟩ := ih (Server.serve E s route r).1
    simp only [Server.run]
    refine ⟨b1.trans a1, b2.trans a2, b3.trans a3, added1 ++ added2, ?_, ?_, ?_⟩
    · rw [b4, a4, List.append_assoc]
    · intro cfg m h
      rcases List.mem_append.mp h with h | h
      · exact a5 cfg m h
      · rw [← a1]; exact b5 cfg m h
    · intro cfg h
      rcases List.mem_append.mp h with h | h
      · exact a6 cfg h
      · rw [← a2]; exact b6 cfg h

/-- What `main` returns when `Load` succeeds. -/
theorem main_eq_some {World : Type} (E : Env World) (envDataDir : Option String)
    (world : World) (srv : Server World) (h : main E envDataDir world = some srv) :
    srv.dataDir = storageRoot envDataDir
      ∧ srv.datamanager = { DataDir := storageRoot envDataDir }
      ∧ srv.ms = (E.Load { DataDir := storageRoot envDataDir } world { Modules := [] }).2.1
      ∧ srv.versionsHandler = listAvailableVersions srv.ms
      ∧ (∀ cfg m, Event.upload cfg m ∉ srv.trace) ∧ (∀ cfg, Event.save cfg ∉ srv.trace) := by
  have hroot : (if Getenv envDataDir = "" then defaultDataDir else Getenv envDataDir)
      = storageRoot envDataDir := by
    cases envDataDir with
    | none => simp [Getenv, storageRoot, defaultDataDir]
    | some v => by_cases hv : v = "" <;> simp [Getenv, storageRoot, defaultDataDir, hv]
  unfold main at h
  simp only [hroot] at h
  split at h
  · exact absurd h (by simp)
  · simp only [Option.some.injEq] at h
    subst h
    exact ⟨rfl, rfl, rfl, rfl, by simp, by simp⟩

/-- On a server built by `main`, the listing route answers from the index as `Load` left
it, whatever requests were served in between. -/
theorem listing_after_requests {World : Type} (E : Env World) (envDataDir : Option String)
    (world : World) (srv : Server World) (h : main E envDataDir world = some srv)
    (reqs : List (Route × Request)) (r : Request) :
    (Server.serve E (Server.run E srv reqs) Route.versions r).2
      = listAvailableVersions
          (E.Load { DataDir := storageRoot envDataDir } world { Modules := [] }).2.1
          ResponseWriter.fresh r := by
  obtain ⟨_, _, h3, h4, _, _⟩ := main_eq_some E envDataDir world srv h
  obtain ⟨_, _, k3, _⟩ := run_frame E reqs srv
  simp only [Server.serve]
  rw [k3, h4, h3]

/-! ## The configuration -/

/-- C10: on a server built by `main`, the storage root given to the snapshot manager (for
`Load` at startup and for every `Save`) and to the uploader on every upload is the value
of DATA_DIR when that value is non-empty and "/.privateterraformregistry/data" when
DATA_DIR is unset or empty; the maximum upload size given to the uploader is always
32 * 2^20 = 33554432 bytes. -/
theorem main_storage_root {World : Type} (E : Env World) (envDataDir : Option String)
    (world : World) (srv : Server World) (h : main E envDataDir world = some srv) :
    srv.datamanager = { DataDir := storageRoot envDataDir }
      ∧ srv.ms = (E.Load { DataDir := storageRoot envDataDir } world { Modules := [] }).2.1
      ∧ (∀ reqs cfg m, Event.upload cfg m ∈ (Server.run E srv reqs).trace →
          cfg = { MaxUploadSize := 33554432, DataDir := storageRoot envDataDir })
      ∧ (∀ reqs cfg, Event.save cfg ∈ (Server.run E srv reqs).trace →
          cfg = { DataDir := storageRoot envDataDir })
      ∧ maxUploadSize = 32 * 2 ^ 20
      ∧ storageRoot none = "/.privateterraformregistry/data"
      ∧ storageRoot (some "") = "/.privateterraformregistry/data"
      ∧ (∀ value, value ≠ "" → storageRoot (some value) = value) := by
  obtain ⟨h1, h2, h3, _, h5, h6⟩ := main_eq_some E envDataDir world srv h
  refine ⟨h2, h3, ?_, ?_, by decide, rfl, rfl, ?_⟩
  · intro reqs cfg m hm
    obtain ⟨_, _, _, added, k4, k5, _⟩ := run_frame E reqs srv
    rw [k4] at hm
    rcases List.mem_append.mp hm with hm | hm
    · exact absurd hm (h5 cfg m)
    · rw [k5 cfg m hm, h1]
      rfl
  · intro reqs cfg hm
    obtain ⟨_, _, _, added, k4, _, k6⟩ := run_frame E reqs srv
    rw [k4] at hm
    rcases List.mem_append.mp hm with hm | hm
    · exact absurd hm (h6 cfg)
    · rw [k6 cfg hm, h2]
  · intro value hv
    simp [storageRoot, hv]

/-- C10, at concrete inputs: DATA_DIR set to "/srv/registry", and an upload served. -/
theorem main_storage_root_witness :
    main sampleEnv (some "/srv/registry") emptyDisk
        = some { sampleServer with
            dataDir := "/srv/registry", datamanager := { DataDir := "/srv/registry" } }
      ∧ Event.upload { MaxUploadSize := 33554432, DataDir := "/srv/registry" } acme100
          ∈ (Server.run sampleEnv
              { sampleServer with
                dataDir := "/srv/registry", datamanager := { DataDir := "/srv/registry" } }
              [(Route.modules, acmePost)]).trace
      ∧ (∀ reqs cfg m,
          Event.upload cfg m ∈ (Server.run sampleEnv
              { sampleServer with
                dataDir := "/srv/registry", datamanager := { DataDir := "/srv/registry" } }
              reqs).trace →
          cfg = { MaxUploadSize := 33554432, DataDir := storageRoot (some "/srv/registry") }) :=
  ⟨rfl, by decide,
   (main_storage_root sampleEnv (some "/srv/registry") emptyDisk
      { sampleServer with
        dataDir := "/srv/registry", datamanager := { DataDir := "/srv/registry" } } rfl).2.2.1⟩

/-! ## Upload followed by listing -/

/-- C2, evaluated on the server `main` builds from an empty storage root: the upload of
`acme/vpc/aws/1.0.0` succeeds and enters the index reached through `&ms`, yet the listing
for `acme/vpc/aws` that follows still answers with no version, because the listing closure
holds the copy of the index taken when the route was registered. -/
theorem upload_then_listing_omits_version :
    main sampleEnv none emptyDisk = some sampleServer
      ∧ sampleEnv.Validate (requestModule acmePost) = none
      ∧ (uploadResult sampleEnv sampleServer acmePost).2 = none
      ∧ (saveResult sampleEnv sampleServer acmePost).2 = none
      ∧ (Server.serve sampleEnv sampleServer Route.modules acmePost).2.statusCode = 200
      ∧ (Server.serve sampleEnv sampleServer Route.modules acmePost).1.ms.Modules = [acme100]
      ∧ (Server.serve sampleEnv sampleServer Route.modules acmePost).1.world.archives
          = [acme100]
      ∧ (versionsPayload (Server.serve sampleEnv sampleServer Route.modules acmePost).1.ms
            acmeVersions).Modules = [[{ Version := "1.0.0" }]]
      ∧ (Server.serve sampleEnv
            (Server.serve sampleEnv sampleServer Route.modules acmePost).1
            Route.versions acmeVersions).2.body
          = [Chunk.json emptyVersionsDocument] := by
  refine ⟨rfl, by decide, by decide, by decide, by decide, by decide, by decide, by decide, rfl⟩

/-! ## The upload pipeline -/

/-- C4, at concrete inputs: an upload whose version fails `Validate` and an upload whose
body makes `uploader.Upload` fail are both answered with status 200, not with 400, 413
or 500. -/
theorem uploadModule_failed_upload_answered_200 :
    (sampleEnv.Validate (requestModule bananaPost)
          = some "version is not a semantic version"
      ∧ (uploadModule sampleEnv sampleServer ResponseWriter.fresh bananaPost).2.statusCode = 200
      ∧ (uploadModule sampleEnv sampleServer ResponseWriter.fresh bananaPost).2.statusCode ≠ 400)
    ∧ (sampleEnv.Validate (requestModule emptyPost) = none
      ∧ (uploadResult sampleEnv sampleServer emptyPost).2 = some "missing form file"
      ∧ (uploadModule sampleEnv sampleServer ResponseWriter.fresh emptyPost).2.statusCode = 200
      ∧ ¬ ((uploadModule sampleEnv sampleServer ResponseWriter.fresh emptyPost).2.statusCode = 413
          ∨ (uploadModule sampleEnv sampleServer ResponseWriter.fresh emptyPost).2.statusCode
              = 500)) := by
  refine ⟨⟨by decide, by decide, by decide⟩, by decide, by decide, by decide, by decide⟩

/-- C4, amended: when `Validate` fails on the identity, or validation succeeds and
`uploader.Upload` returns an error, `uploadModule` logs the error and returns without
touching the response: no header, no status and no body are written, so the client
receives the default status 200 with an empty body. -/
theorem uploadModule_failure_only_logged {World : Type} (E : Env World) (s : Server World)
    (w : ResponseWriter) (r : Request) (e : String)
    (h : E.Validate (requestModule r) = some e
      ∨ (E.Validate (requestModule r) = none ∧ (uploadResult E s r).2 = some e)) :
    (uploadModule E s w r).2 = w
      ∧ (uploadModule E s ResponseWriter.fresh r).2.statusCode = 200
      ∧ (uploadModule E s ResponseWriter.fresh r).2.body = []
      ∧ (uploadModule E s ResponseWriter.fresh r).2.header = []
      ∧ (newEvents s (uploadModule E s w r).1).getLast? = some (Event.log e) := by
  have hw := uploadModule_writer E s ResponseWriter.fresh r
  refine ⟨uploadModule_writer E s w r, by rw [hw]; rfl, by rw [hw]; rfl, by rw [hw]; rfl, ?_⟩
  rcases h with hv | ⟨hv, hu⟩
  · rw [uploadModule_validate_error E s w r e hv]
    simp [newEvents]
  · rw [uploadModule_upload_error E s w r e hv hu]
    simp [newEvents]

/-- C4, amended, at concrete inputs: a version that is not a semantic version, and a body
without a file. -/
theorem uploadModule_failure_only_logged_witness :
    ((uploadModule sampleEnv sampleServer ResponseWriter.fresh bananaPost).2
          = ResponseWriter.fresh
      ∧ (uploadModule sampleEnv sampleServer ResponseWriter.fresh bananaPost).2.statusCode = 200)
    ∧ ((uploadModule sampleEnv sampleServer ResponseWriter.fresh emptyPost).2
          = ResponseWriter.fresh
      ∧ (uploadModule sampleEnv sampleServer ResponseWriter.fresh emptyPost).2.statusCode = 200) :=
  ⟨⟨(uploadModule_failure_only_logged sampleEnv sampleServer ResponseWriter.fresh bananaPost
        "version is not a semantic version" (Or.inl (by decide))).1,
    (uploadModule_failure_only_logged sampleEnv sampleServer ResponseWriter.fresh bananaPost
        "version is not a semantic version" (Or.inl (by decide))).2.1⟩,
   ⟨(uploadModule_failure_only_logged sampleEnv sampleServer ResponseWriter.fresh emptyPost
        "missing form file" (Or.inr ⟨by decide, by decide⟩)).1,
    (uploadModule_failure_only_logged sampleEnv sampleServer ResponseWriter.fresh emptyPost
        "missing form file" (Or.inr ⟨by decide, by decide⟩)).2.1⟩⟩

/-- C5: when `Validate` fails, `uploader.Upload` is not invoked, the index and the world
are left as they were, and neither `Add` nor `Save` is invoked; when `uploader.Upload`
returns an error, the index is left as it was and neither `Add` nor `Save` is invoked;
and `Add` is only called right after `uploader.Upload` has returned without error. -/
theorem uploadModule_failure_keeps_index {World : Type} (E : Env World) (s : Server World)
    (w : ResponseWriter) (r : Request) :
    (∀ e, E.Validate (requestModule r) = some e →
        (uploadModule E s w r).1.ms = s.ms
        ∧ (uploadModule E s w r).1.world = s.world
        ∧ newEvents s (uploadModule E s w r).1
            = [Event.enterUploadModule, Event.validate (requestModule r), Event.log e]
        ∧ (newEvents s (uploadModule E s w r).1).all
            (fun ev => !ev.isUpload && !ev.isAdd && !ev.isSave) = true)
    ∧ (∀ e, E.Validate (requestModule r) = none → (uploadResult E s r).2 = some e →
        (uploadModule E s w r).1.ms = s.ms
        ∧ newEvents s (uploadModule E s w r).1
            = [Event.enterUploadModule, Event.validate (requestModule r),
                Event.upload (uploaderConfig s.dataDir) (requestModule r), Event.log e]
        ∧ (newEvents s (uploadModule E s w r).1).all
            (fun ev => !ev.isAdd && !ev.isSave) = true)
    ∧ (∀ m, Event.add m ∈ newEvents s (uploadModule E s w r).1 →
        m = requestModule r
        ∧ E.Validate (requestModule r) = none
        ∧ (uploadResult E s r).2 = none
        ∧ ∃ rest, newEvents s (uploadModule E s w r).1
            = [Event.enterUploadModule, Event.validate (requestModule r),
                Event.upload (uploaderConfig s.dataDir) (requestModule r),
                Event.add (requestModule r)] ++ rest) := by
  refine ⟨?_, ?_, ?_⟩
  · intro e hv
    rw [uploadModule_validate_error E s w r e hv]
    simp [newEvents, Event.isUpload, Event.isAdd, Event.isSave]
  · intro e hv hu
    rw [uploadModule_upload_error E s w r e hv hu]
    simp [newEvents, Event.isAdd, Event.isSave]
  · intro m hm
    cases hv : E.Validate (requestModule r) with
    | some e =>
      rw [uploadModule_validate_error E s w r e hv] at hm
      simp [newEvents] at hm
    | none =>
      cases hu : (uploadResult E s r).2 with
      | some e =>
        rw [uploadModule_upload_error E s w r e hv hu] at hm
        simp [newEvents] at hm
      | none =>
        cases hs : (saveResult E s r).2 with
        | some e =>
          rw [uploadModule_save_error E s w r e hv hu hs] at hm ⊢
          simp [newEvents] at hm
          exact ⟨hm, rfl, rfl, _, by simp [newEvents]; rfl⟩
        | none =>
          rw [uploadModule_success E s w r hv hu hs] at hm ⊢
          simp [newEvents] at hm
          exact ⟨hm, rfl, rfl, _, by simp [newEvents]; rfl⟩

/-- C5, at concrete inputs: a rejected version, a body without a file, and an accepted
upload. -/
theorem uploadModule_failure_keeps_index_witness :
    ((uploadModule sampleEnv sampleServer ResponseWriter.fresh bananaPost).1.ms = sampleServer.ms
      ∧ (uploadModule sampleEnv sampleServer ResponseWriter.fresh bananaPost).1.world
          = sampleServer.world)
    ∧ (uploadModule sampleEnv sampleServer ResponseWriter.fresh emptyPost).1.ms = sampleServer.ms
    ∧ (sampleEnv.Validate (requestModule acmePost) = none
        ∧ (uploadResult sampleEnv sampleServer acmePost).2 = none) :=
  ⟨⟨((uploadModule_failure_keeps_index sampleEnv sampleServer ResponseWriter.fresh
        bananaPost).1 "version is not a semantic version" (by decide)).1,
    ((uploadModule_failure_keeps_index sampleEnv sampleServer ResponseWriter.fresh
        bananaPost).1 "version is not a semantic version" (by decide)).2.1⟩,
   ((uploadModule_failure_keeps_index sampleEnv sampleServer ResponseWriter.fresh
        emptyPost).2.1 "missing form file" (by decide) (by decide)).1,
   ⟨((uploadModule_failure_keeps_index sampleEnv sampleServer ResponseWriter.fresh
        acmePost).2.2 acme100 (by decide)).2.1,
    ((uploadModule_failure_keeps_index sampleEnv sampleServer ResponseWriter.fresh
        acmePost).2.2 acme100 (by decide)).2.2.1⟩⟩

/-- C6: when `Validate` and `uploader.Upload` succeed and `Save` returns an error, the
response is left untouched (status 200, no body written), the error is logged, and the
index after the call is the index before the call with `Add` applied to the identity. -/
theorem uploadModule_save_failure_keeps_add {World : Type} (E : Env World)
    (s : Server World) (w : ResponseWriter) (r : Request) (e : String)
    (hv : E.Validate (requestModule r) = none) (hu : (uploadResult E s r).2 = none)
    (hs : (saveResult E s r).2 = some e) :
    (uploadModule E s w r).2 = w
      ∧ (uploadModule E s ResponseWriter.fresh r).2.statusCode = 200
      ∧ (uploadModule E s ResponseWriter.fresh r).2.body = []
      ∧ (uploadModule E s w r).1.ms = s.ms.Add (requestModule r)
      ∧ (newEvents s (uploadModule E s w r).1).getLast? = some (Event.log e) := by
  rw [uploadModule_save_error E s w r e hv hu hs,
    uploadModule_save_error E s ResponseWriter.fresh r e hv hu hs]
  refine ⟨rfl, rfl, rfl, rfl, ?_⟩
  simp [newEvents]

/-- C6, at a concrete input: an accepted upload on a storage root whose snapshot cannot be
written. -/
theorem uploadModule_save_failure_keeps_add_witness :
    (uploadModule sampleEnv readOnlyServer ResponseWriter.fresh acmePost).2.statusCode = 200
      ∧ (uploadModule sampleEnv readOnlyServer ResponseWriter.fresh acmePost).2.body = []
      ∧ (uploadModule sampleEnv readOnlyServer ResponseWriter.fresh acmePost).1.ms
          = readOnlyServer.ms.Add (requestModule acmePost) :=
  ⟨(uploadModule_save_failure_keeps_add sampleEnv readOnlyServer ResponseWriter.fresh acmePost
      "cannot write the snapshot" (by decide) (by decide) (by decide)).2.1,
   (uploadModule_save_failure_keeps_add sampleEnv readOnlyServer ResponseWriter.fresh acmePost
      "cannot write the snapshot" (by decide) (by decide) (by decide)).2.2.1,
   (uploadModule_save_failure_keeps_add sampleEnv readOnlyServer ResponseWriter.fresh acmePost
      "cannot write the snapshot" (by decide) (by decide) (by decide)).2.2.2.1⟩

/-- C7: on the module path, method POST runs `uploadModule` (after one log line) and never
`downloadModule`; method GET runs only `downloadModule`, leaving the index, the world and
the response as they were; every other method is answered with status 405 and body
"Method Not Allowed", runs neither function and leaves the server as it was. -/
theorem uploadOrDownloadModule_by_method {World : Type} (E : Env World) (s : Server World)
    (w : ResponseWriter) (r : Request) :
    (r.Method = "POST" →
        uploadOrDownloadModule E s w r
            = uploadModule E (s.record (Event.log "Uploading Module")) w r
        ∧ Event.enterUploadModule ∈ newEvents s (uploadOrDownloadModule E s w r).1
        ∧ Event.enterDownloadModule ∉ newEvents s (uploadOrDownloadModule E s w r).1)
    ∧ (r.Method = "GET" →
        (uploadOrDownloadModule E s w r).1.ms = s.ms
        ∧ (uploadOrDownloadModule E s w r).1.world = s.world
        ∧ (uploadOrDownloadModule E s w r).2 = w
        ∧ newEvents s (uploadOrDownloadModule E s w r).1
            = [Event.log "Downloading Module", Event.enterDownloadModule])
    ∧ (r.Method ≠ "POST" → r.Method ≠ "GET" →
        (uploadOrDownloadModule E s w r).1 = s
        ∧ newEvents s (uploadOrDownloadModule E s w r).1 = []
        ∧ (uploadOrDownloadModule E s ResponseWriter.fresh r).2.statusCode = 405
        ∧ (uploadOrDownloadModule E s ResponseWriter.fresh r).2.body
            = [Chunk.bytes "Method Not Allowed"]) := by
  refine ⟨?_, ?_, ?_⟩
  · intro hm
    have heq : uploadOrDownloadModule E s w r
        = uploadModule E (s.record (Event.log "Uploading Module")) w r := by
      simp [uploadOrDownloadModule, hm]
    obtain ⟨_, _, _, added, h4, hin, h5, _, _⟩ :=
      uploadModule_frame E (s.record (Event.log "Uploading Module")) w r
    have hne : newEvents s (uploadModule E (s.record (Event.log "Uploading Module")) w r).1
        = Event.log "Uploading Module" :: added := by
      unfold newEvents
      rw [h4]
      simp [Server.record]
    refine ⟨heq, ?_, ?_⟩
    · rw [heq, hne]; simp [hin]
    · rw [heq, hne]; simp [h5]
  · intro hm
    have hp : r.Method ≠ "POST" := by rw [hm]; decide
    simp [uploadOrDownloadModule, hm, downloadModule, Server.record, newEvents]
  · intro hp hg
    simp [uploadOrDownloadModule, hp, hg, newEvents, ResponseWriter.fresh,
      ResponseWriter.WriteHeader, ResponseWriter.Write, ResponseWriter.statusCode]

/-- C7, at concrete inputs: a POST, a GET and a DELETE on the module path. -/
theorem uploadOrDownloadModule_by_method_witness :
    uploadOrDownloadModule sampleEnv sampleServer ResponseWriter.fresh acmePost
        = uploadModule sampleEnv (sampleServer.record (Event.log "Uploading Module"))
            ResponseWriter.fresh acmePost
      ∧ (uploadOrDownloadModule sampleEnv sampleServer ResponseWriter.fresh acmeGet).1.ms
          = sampleServer.ms
      ∧ (uploadOrDownloadModule sampleEnv sampleServer ResponseWriter.fresh
            acmeDelete).2.statusCode = 405 :=
  ⟨((uploadOrDownloadModule_by_method sampleEnv sampleServer ResponseWriter.fresh
        acmePost).1 (by decide)).1,
   ((uploadOrDownloadModule_by_method sampleEnv sampleServer ResponseWriter.fresh
        acmeGet).2.1 (by decide)).1,
   ((uploadOrDownloadModule_by_method sampleEnv sampleServer ResponseWriter.fresh
        acmeDelete).2.2 (by decide) (by decide)).2.2.1⟩

/-! ## Repeated uploads and invariant I1 -/

/-- What a successful call of `uploadModule` does to the index. -/
theorem uploadModule_index_of_success {World : Type} (E : Env World) (s : Server World)
    (w : ResponseWriter) (r : Request)
    (hv : E.Validate (requestModule r) = none) (hu : (uploadResult E s r).2 = none) :
    (uploadModule E s w r).1.ms.Modules = s.ms.Modules ++ [requestModule r] := by
  cases hs : (saveResult E s r).2 with
  | some e => rw [uploadModule_save_error E s w r e hv hu hs]; rfl
  | none => rw [uploadModule_success E s w r hv hu hs]; rfl

/-- C8, at concrete inputs: on the empty index, which satisfies I1, two successive
successful uploads of `acme/vpc/aws/1.0.0` leave two entries equal to that identity, and
the index no longer satisfies I1. -/
theorem repeated_upload_duplicates_entry :
    sampleServer.ms.I1
      ∧ sampleEnv.Validate (requestModule acmePost) = none
      ∧ (uploadResult sampleEnv sampleServer acmePost).2 = none
      ∧ (uploadResult sampleEnv
            (uploadModule sampleEnv sampleServer ResponseWriter.fresh acmePost).1 acmePost).2
          = none
      ∧ (uploadModule sampleEnv
            (uploadModule sampleEnv sampleServer ResponseWriter.fresh acmePost).1
            ResponseWriter.fresh acmePost).1.ms.Modules = [acme100, acme100]
      ∧ (uploadModule sampleEnv
            (uploadModule sampleEnv sampleServer ResponseWriter.fresh acmePost).1
            ResponseWriter.fresh acmePost).1.ms.Modules.count acme100 = 2
      ∧ ¬ (uploadModule sampleEnv
            (uploadModule sampleEnv sampleServer ResponseWriter.fresh acmePost).1
            ResponseWriter.fresh acmePost).1.ms.I1 := by
  refine ⟨by decide, by decide, by decide, by decide, by decide, by decide, by decide⟩

/-- C8, amended: a successful call of `uploadModule` appends the identity at the end of the
index without looking for an equal entry; on an index satisfying I1 the call preserves I1
exactly when the identity was not yet in the index; and when a second upload of the same
identity succeeds right after, the index holds two more entries equal to that identity
than before the first call and does not satisfy I1. -/
theorem uploadModule_success_appends {World : Type} (E : Env World) (s : Server World)
    (w : ResponseWriter) (r : Request)
    (hv : E.Validate (requestModule r) = none) (hu : (uploadResult E s r).2 = none) :
    (uploadModule E s w r).1.ms.Modules = s.ms.Modules ++ [requestModule r]
      ∧ (s.ms.I1 → ((uploadModule E s w r).1.ms.I1 ↔ requestModule r ∉ s.ms.Modules))
      ∧ ((uploadResult E (uploadModule E s w r).1 r).2 = none →
          (uploadModule E (uploadModule E s w r).1 w r).1.ms.Modules
              = s.ms.Modules ++ [requestModule r, requestModule r]
          ∧ (uploadModule E (uploadModule E s w r).1 w r).1.ms.Modules.count (requestModule r)
              = s.ms.Modules.count (requestModule r) + 2
          ∧ ¬ (uploadModule E (uploadModule E s w r).1 w r).1.ms.I1) := by
  have h1 := uploadModule_index_of_success E s w r hv hu
  refine ⟨h1, ?_, ?_⟩
  · intro hI
    unfold Modules.I1 at hI ⊢
    rw [h1, List.nodup_append]
    constructor
    · intro h hmem
      exact h.2.2 hmem (List.mem_singleton_self _)
    · intro h
      refine ⟨hI, List.nodup_singleton _, ?_⟩
      intro a ha hb
      rw [List.mem_singleton] at hb
      subst hb
      exact h ha
  · intro hu2
    have h2 := uploadModule_index_of_success E (uploadModule E s w r).1 w r hv hu2
    rw [h1] at h2
    have h3 : (uploadModule E (uploadModule E s w r).1 w r).1.ms.Modules
        = s.ms.Modules ++ [requestModule r, requestModule r] := by
      rw [h2]; simp
    refine ⟨h3, ?_, ?_⟩
    · rw [h3]; simp
    · unfold Modules.I1
      rw [h3, List.nodup_append]
      intro h
      have := h.2.1
      simp at this

/-- C8, amended, at concrete inputs: two accepted uploads of `acme/vpc/aws/1.0.0` on the
empty index. -/
theorem uploadModule_success_appends_witness :
    (uploadModule sampleEnv sampleServer ResponseWriter.fresh acmePost).1.ms.Modules
        = sampleServer.ms.Modules ++ [requestModule acmePost]
      ∧ (uploadModule sampleEnv
            (uploadModule sampleEnv sampleServer ResponseWriter.fresh acmePost).1
            ResponseWriter.fresh acmePost).1.ms.Modules
          = sampleServer.ms.Modules ++ [requestModule acmePost, requestModule acmePost] :=
  ⟨(uploadModule_success_appends sampleEnv sampleServer ResponseWriter.fresh acmePost
      (by decide) (by decide)).1,
   ((uploadModule_success_appends sampleEnv sampleServer ResponseWriter.fresh acmePost
      (by decide) (by decide)).2.2 (by decide)).1⟩

/-- The policy of section 4.3 of the spec, by contrast, preserves I1 and makes a second
`Add` of the same identity a no-op. -/
theorem AddOnce_preserves_I1 (ms : Modules) (m : Module) (h : ms.I1) :
    (ms.AddOnce m).I1 ∧ (ms.AddOnce m).AddOnce m = ms.AddOnce m
      ∧ (ms.AddOnce m).Modules.count m = 1 := by
  unfold Modules.I1 at h ⊢
  by_cases hm : m ∈ ms.Modules
  · have e1 : ms.AddOnce m = ms := by simp [Modules.AddOnce, hm]
    rw [e1, e1]
    exact ⟨h, rfl, List.count_eq_one_of_mem h hm⟩
  · have e1 : ms.AddOnce m = { Modules := ms.Modules ++ [m] } := by
      simp [Modules.AddOnce, hm]
    have hnd : (ms.Modules ++ [m]).Nodup := by
      rw [List.nodup_append]
      refine ⟨h, List.nodup_singleton _, ?_⟩
      intro a ha hb
      rw [List.mem_singleton] at hb
      subst hb
      exact hm ha
    rw [e1]
    refine ⟨hnd, by simp [Modules.AddOnce], ?_⟩
    exact List.count_eq_one_of_mem hnd (by simp)

end Registry
